import Mathlib

/-
Verification of the hex-memory-view plugin
(src/src/plugins/hex_memory/hex_memory_plugin.cpp).

The plugin state and its operations are embedded shallowly: byte buffers
become offset-indexed functions `Nat → Nat`, machine integers become `Nat`
(with explicit reduction modulo 2 ^ 64 at the C casts), text fields become
`String`, the inbound event stream becomes a `List Event`, and the outbound
writer becomes the `List GetMemoryEvent` returned by `update`.
-/

namespace HexMemory

/-- Capacity of each snapshot buffer: both are allocated as
`malloc(128 * 1024)` in `createInstance`. -/
def capacity : Nat := 128 * 1024

/-- A byte payload carried by a `SetMemory` event: its length and the byte
at each offset below the length. -/
structure Payload where
  len : Nat
  get : Nat → Nat

/-- `struct HexMemoryData`: the per-instance plugin state.  The two buffers
are modelled as total functions on offsets; offsets at or past `capacity`
stand for the adjacent heap memory after each 128 KiB allocation. -/
structure HexMemoryData where
  data : Nat → Nat
  oldData : Nat → Nat
  dataSize : Nat
  addressSize : Nat
  startAddress : String
  sizeText : String
  requestData : Bool
  sa : Nat
  size : Nat
  exceptionLocation : Nat

/-- C `isspace` in the default locale (space, \t, \n, \v, \f, \r),
as skipped by `strtol`. -/
def isSpaceC (c : Char) : Bool :=
  c = ' ' || c = '\t' || c = '\n' || c = Char.ofNat 11 || c = Char.ofNat 12 || c = '\r'

/-- Value of one hexadecimal digit, `none` when `c` is not one. -/
def hexVal? (c : Char) : Option Nat :=
  if '0' ≤ c ∧ c ≤ '9' then some (c.toNat - Char.toNat '0')
  else if 'a' ≤ c ∧ c ≤ 'f' then some (c.toNat - Char.toNat 'a' + 10)
  else if 'A' ≤ c ∧ c ≤ 'F' then some (c.toNat - Char.toNat 'A' + 10)
  else none

/-- Accumulate the longest prefix of hexadecimal digits, as `strtol`
does after the optional prefix. -/
def hexAcc : List Char → Nat → Nat
  | [], acc => acc
  | c :: cs, acc =>
    match hexVal? c with
    | some v => hexAcc cs (acc * 16 + v)
    | none => acc

/-- Drop an optional `0x` / `0X` prefix, as `strtol` with base 16 does. -/
def strip0x : List Char → List Char
  | '0' :: 'x' :: rest => rest
  | '0' :: 'X' :: rest => rest
  | l => l

/-- `LONG_MAX` on an LP64 platform. -/
def LONG_MAX : Int := 2 ^ 63 - 1

/-- `LONG_MIN` on an LP64 platform. -/
def LONG_MIN : Int := -(2 ^ 63)

/-- Model of C `strtol(s, 0, 16)`: skip whitespace, read an optional sign
and an optional `0x` prefix, accumulate the longest run of hex digits
(yielding 0 when there are none, as `strtol` does on no conversion), and
saturate at the `long` range. -/
def strtol16 (s : String) : Int :=
  let t := s.data.dropWhile (fun c => isSpaceC c)
  let sign : Int :=
    match t with
    | '-' :: _ => -1
    | _ => 1
  let t2 :=
    match t with
    | '-' :: r => r
    | '+' :: r => r
    | _ => t
  let raw : Int := sign * (hexAcc (strip0x t2) 0 : Nat)
  if raw > LONG_MAX then LONG_MAX else if raw < LONG_MIN then LONG_MIN else raw

/-- The C cast `(uint64_t)x` applied to a `long`. -/
def toU64 (x : Int) : Nat := (x % ((2 ^ 64 : Nat) : Int)).toNat

/-- `memcpy(dst, src, n)` over offset-indexed bytes: offsets below `n` take
the source byte, every other offset keeps the destination byte.  No bound
is applied at `capacity`: the C call writes wherever `n` reaches. -/
def memcpy (dst src : Nat → Nat) (n : Nat) : Nat → Nat :=
  fun i => if i < n then src i else dst i

/-- An inbound event, with the fields the plugin reads from it.  A field a
reader fails to find is `none` (`PDRead_find_u64` then leaves the preset 0). -/
inductive Event where
  | setMemory (address : Option Nat) (payload : Option Payload)
  | setExceptionLocation (address : Option Nat)
  | unknown

/-- An outbound `GetMemory` request with its two written fields. -/
structure GetMemoryEvent where
  address_start : Nat
  size : Nat
deriving DecidableEq

/-- `createInstance`: zeroed struct, default texts, `sa = 0`, `size = 1024`,
both 128 KiB buffers filled with `0xff`, `addressSize = 4`. -/
def createInstance : HexMemoryData where
  data := fun _ => 0xff
  oldData := fun _ => 0xff
  dataSize := 0
  addressSize := 4
  startAddress := "0x00000000"
  sizeText := "1024"
  requestData := false
  sa := 0
  size := 1024
  exceptionLocation := 0

/-- `updateMemory`: if the `data` field is absent, return unchanged;
otherwise set `sa` to the event address (0 when absent), copy `size` bytes
of `data` into `oldData`, then copy the payload into `data` — both raw
`memcpy` calls of the payload length, with no capacity check. -/
def updateMemory (d : HexMemoryData) (address : Option Nat)
    (payload : Option Payload) : HexMemoryData :=
  match payload with
  | none => d
  | some p =>
    { d with
      sa := address.getD 0
      oldData := memcpy d.oldData d.data p.len
      data := memcpy d.data p.get p.len }

/-- `updateExceptionLocation`: read the address (0 when absent); when it
equals the stored `exceptionLocation` do nothing, otherwise set
`requestData` and store the new location. -/
def updateExceptionLocation (d : HexMemoryData) (address : Option Nat) :
    HexMemoryData :=
  let a := address.getD 0
  if d.exceptionLocation = a then d
  else { d with requestData := true, exceptionLocation := a }

/-- The state changes of `drawUI`: re-parse both text fields with
`strtol(.., 0, 16)`, and on a difference with the stored `sa` / `size` set
`requestData` and store the parsed value.  The drawing calls mutate no
plugin state and are omitted. -/
def drawUI (d : HexMemoryData) : HexMemoryData :=
  let a := toU64 (strtol16 d.startAddress)
  let s := toU64 (strtol16 d.sizeText)
  let d1 := if d.sa ≠ a then { d with requestData := true, sa := a } else d
  if d1.size ≠ s then { d1 with requestData := true, size := s } else d1

/-- The event-dispatch loop of `update`: `SetMemory` and
`SetExceptionLocation` are handled, every other event ignored. -/
def processEvents (d : HexMemoryData) (events : List Event) : HexMemoryData :=
  events.foldl
    (fun d e =>
      match e with
      | Event.setMemory a p => updateMemory d a p
      | Event.setExceptionLocation a => updateExceptionLocation d a
      | Event.unknown => d)
    d

/-- `update`: clear `requestData`, drain the inbound events, run `drawUI`,
and when `requestData` is set emit one `GetMemory` event carrying `sa` and
`size`.  The returned list is the cycle's outbound stream. -/
def update (d : HexMemoryData) (events : List Event) :
    HexMemoryData × List GetMemoryEvent :=
  let d1 := processEvents { d with requestData := false } events
  let d2 := drawUI d1
  (d2, if d2.requestData then [⟨d2.sa, d2.size⟩] else [])

/-- Modelled from the spec: `PDIO_write_string` is host runtime not under
src/; per §6 it emits one length-prefixed text field. -/
def PDIO_write_string (s : String) : List Nat :=
  s.length :: s.data.map Char.toNat

/-- Modelled from the spec: `PDIO_read_string` is host runtime not under
src/; it reads one length-prefixed text field into a buffer of `bufSize`
bytes, failing — and writing nothing — when the blob is truncated or the
field does not fit the buffer. -/
def PDIO_read_string (blob : List Nat) (bufSize : Nat) :
    Option (String × List Nat) :=
  match blob with
  | [] => none
  | n :: rest =>
    if n < bufSize ∧ n ≤ rest.length then
      some (String.mk ((rest.take n).map Char.ofNat), rest.drop n)
    else none

/-- `saveState`: write `startAddress` then `sizeText`, return 1. -/
def saveState (d : HexMemoryData) : List Nat × Nat :=
  (PDIO_write_string d.startAddress ++ PDIO_write_string d.sizeText, 1)

/-- `loadState`: read `startAddress` then `sizeText` from the blob and
return 1.  The C code never checks the reads: the return value 1 is
unconditional, and a field whose read fails keeps its prior contents. -/
def loadState (d : HexMemoryData) (blob : List Nat) : HexMemoryData × Nat :=
  match PDIO_read_string blob 64 with
  | none => (d, 1)
  | some (s1, rest) =>
    match PDIO_read_string rest 64 with
    | none => ({ d with startAddress := s1 }, 1)
    | some (s2, _) => ({ d with startAddress := s1, sizeText := s2 }, 1)

/-! ### Helper lemmas -/

theorem processEvents_nil (d : HexMemoryData) : processEvents d [] = d := rfl

theorem processEvents_single (d : HexMemoryData) (a : Option Nat) :
    processEvents d [Event.setExceptionLocation a] = updateExceptionLocation d a := rfl

theorem drawUI_sa (d : HexMemoryData) :
    (drawUI d).sa = toU64 (strtol16 d.startAddress) := by
  simp only [drawUI]
  split_ifs <;> simp_all

theorem drawUI_size (d : HexMemoryData) :
    (drawUI d).size = toU64 (strtol16 d.sizeText) := by
  simp only [drawUI]
  split_ifs <;> simp_all

theorem drawUI_exceptionLocation (d : HexMemoryData) :
    (drawUI d).exceptionLocation = d.exceptionLocation := by
  simp only [drawUI]
  split_ifs <;> simp_all

theorem drawUI_requestData_iff (d : HexMemoryData) :
    (drawUI d).requestData = true ↔
      (d.requestData = true ∨ d.sa ≠ toU64 (strtol16 d.startAddress) ∨
        d.size ≠ toU64 (strtol16 d.sizeText)) := by
  simp only [drawUI]
  split_ifs <;> simp_all

/-! ### Claim theorems -/

/-- State with the two buffers distinguishable at every offset: the current
buffer holds 1 everywhere, the previous buffer holds 2 everywhere. -/
def stDistinct : HexMemoryData :=
  { createInstance with data := fun _ => 1, oldData := fun _ => 2 }

/-- A `SetMemory` payload one byte longer than the snapshot capacity. -/
def overflowPayload : Payload := ⟨capacity + 1, fun _ => 0⟩

/-- C1: the code applies an incoming payload with raw `memcpy` of the
payload length and no capacity check, and has no `Overflow` result: for a
payload of `capacity + 1` bytes it writes into the current buffer (offset 0
changes from 1 to the payload byte 0), into the previous buffer (offset 0
changes from 2 to 1), and even past the end of both 128 KiB buffers
(offset `capacity` changes in both) — instead of writing nothing and
returning `Overflow` as the claim states. -/
theorem updateMemory_overflow_writes :
    capacity < overflowPayload.len ∧
    (updateMemory stDistinct none (some overflowPayload)).data 0 = 0 ∧
    stDistinct.data 0 = 1 ∧
    (updateMemory stDistinct none (some overflowPayload)).oldData 0 = 1 ∧
    stDistinct.oldData 0 = 2 ∧
    (updateMemory stDistinct none (some overflowPayload)).data capacity = 0 ∧
    (updateMemory stDistinct none (some overflowPayload)).oldData capacity = 1 := by
  decide

/-- A one-byte payload carrying the byte 5. -/
def smallPayload : Payload := ⟨1, fun _ => 5⟩

/-- C4 (counterexample): after applying a 1-byte payload, the previous
buffer at offset 1 still holds its old byte 2 and differs from the pre-call
current byte 1 — the code copies only `len(payload)` bytes of `current`
into `previous`, not all `capacity` bytes as the claim states. -/
theorem updateMemory_prev_partial_copy :
    (updateMemory stDistinct none (some smallPayload)).oldData 1 = 2 ∧
    stDistinct.data 1 = 1 ∧
    (updateMemory stDistinct none (some smallPayload)).oldData 1 ≠ stDistinct.data 1 := by
  decide

/-- C4 (amended): an apply-incoming call with payload `p` copies exactly the
first `len(p)` bytes of `current` into `previous` and then writes `p` into
`current`: afterwards `previous` equals the pre-call `current` on
`[0, len p)` and the pre-call `previous` elsewhere, and `current` equals
`p` on `[0, len p)` and the pre-call `current` elsewhere. -/
theorem updateMemory_success_spec (d : HexMemoryData) (a : Option Nat)
    (p : Payload) (_hp : p.len ≤ capacity) :
    (∀ i, i < p.len → (updateMemory d a (some p)).oldData i = d.data i) ∧
    (∀ i, p.len ≤ i → (updateMemory d a (some p)).oldData i = d.oldData i) ∧
    (∀ i, i < p.len → (updateMemory d a (some p)).data i = p.get i) ∧
    (∀ i, p.len ≤ i → (updateMemory d a (some p)).data i = d.data i) := by
  refine ⟨fun i hi => ?_, fun i hi => ?_, fun i hi => ?_, fun i hi => ?_⟩ <;>
    simp only [updateMemory, memcpy] <;>
    first
      | rw [if_pos hi]
      | rw [if_neg (by omega)]

theorem updateMemory_success_spec_witness :
    smallPayload.len ≤ capacity ∧
    ((∀ i, i < smallPayload.len →
        (updateMemory createInstance none (some smallPayload)).oldData i =
          createInstance.data i) ∧
     (∀ i, smallPayload.len ≤ i →
        (updateMemory createInstance none (some smallPayload)).oldData i =
          createInstance.oldData i) ∧
     (∀ i, i < smallPayload.len →
        (updateMemory createInstance none (some smallPayload)).data i =
          smallPayload.get i) ∧
     (∀ i, smallPayload.len ≤ i →
        (updateMemory createInstance none (some smallPayload)).data i =
          createInstance.data i)) :=
  ⟨by decide, updateMemory_success_spec createInstance none smallPayload (by decide)⟩

/-- C5 (counterexample): the first update cycle of a fresh instance does
not emit `GetMemory{address_start = 0, size = 1024}`. -/
theorem firstCycle_size_not_1024 :
    (update createInstance []).snd ≠ [⟨0, 1024⟩] := by decide

/-- C5 (amended): the first update cycle of a fresh instance emits exactly
one `GetMemory` event with `address_start = 0` and `size = 4132`: the
default size text `"1024"` is re-parsed as hexadecimal (`0x1024 = 4132`),
which differs from the stored default size 1024 and so triggers the
fetch. -/
theorem firstCycle_emits_4132 :
    (update createInstance []).snd = [⟨0, 4132⟩] := by decide

/-- State whose size text parses (as hex) to `0x20001 = 131073`, one byte
past the snapshot capacity. -/
def stBig : HexMemoryData := { createInstance with sizeText := "20001" }

/-- C6 (counterexample): entering size text `"20001"` stores and emits the
size `131073 > capacity = 131072`; nothing clamps the size to the snapshot
capacity. -/
theorem update_size_exceeds_capacity :
    capacity < 131073 ∧
    (update stBig []).fst.size = 131073 ∧
    (update stBig []).snd = [⟨0, 131073⟩] := by decide

/-- State whose stored pair already equals what the default texts re-parse
to: `"0x00000000"` gives 0 and `"1024"` read as hex gives 4132. -/
def stConsistent : HexMemoryData := { createInstance with size := 4132 }

/-- C2: in an update cycle with no inbound events, when the re-parsed
(address, size) pair differs from the stored last-requested pair exactly
one `GetMemory` event is emitted, carrying the newly parsed values; when it
equals the stored pair, no event is emitted. -/
theorem update_fetch_trigger (d : HexMemoryData) :
    (¬(toU64 (strtol16 d.startAddress) = d.sa ∧
        toU64 (strtol16 d.sizeText) = d.size) →
      (update d []).snd =
        [⟨toU64 (strtol16 d.startAddress), toU64 (strtol16 d.sizeText)⟩]) ∧
    ((toU64 (strtol16 d.startAddress) = d.sa ∧
        toU64 (strtol16 d.sizeText) = d.size) →
      (update d []).snd = []) := by
  constructor
  · intro h
    have hrq : (drawUI { d with requestData := false }).requestData = true := by
      rw [drawUI_requestData_iff]
      rcases not_and_or.mp h with h1 | h1
      · exact Or.inr (Or.inl fun hh => h1 hh.symm)
      · exact Or.inr (Or.inr fun hh => h1 hh.symm)
    simp only [update, processEvents_nil]
    rw [if_pos hrq, drawUI_sa, drawUI_size]
  · intro h
    have hrq : ¬ (drawUI { d with requestData := false }).requestData = true := by
      rw [drawUI_requestData_iff]
      simp [h.1, h.2]
    simp only [update, processEvents_nil]
    rw [if_neg hrq]

theorem update_fetch_trigger_witness :
    (update createInstance []).snd =
      [⟨toU64 (strtol16 createInstance.startAddress),
        toU64 (strtol16 createInstance.sizeText)⟩] ∧
    (update stConsistent []).snd = [] :=
  ⟨(update_fetch_trigger createInstance).1 (by decide),
   (update_fetch_trigger stConsistent).2 (by decide)⟩

/-- C3: a cycle receiving a `SetExceptionLocation` event whose address
differs from the stored `exceptionLocation` emits exactly one `GetMemory`
event and stores the event's address as the new `exceptionLocation`. -/
theorem update_exception_triggers_fetch (d : HexMemoryData) (a : Nat)
    (h : a ≠ d.exceptionLocation) :
    ((update d [Event.setExceptionLocation (some a)]).snd).length = 1 ∧
    (update d [Event.setExceptionLocation (some a)]).fst.exceptionLocation = a := by
  have h1 : updateExceptionLocation { d with requestData := false } (some a) =
      { d with requestData := true, exceptionLocation := a } := by
    simp only [updateExceptionLocation, Option.getD]
    rw [if_neg]
    exact fun hh => h hh.symm
  simp only [update, processEvents_single, h1]
  have hrq : (drawUI { d with requestData := true, exceptionLocation := a }).requestData = true := by
    rw [drawUI_requestData_iff]
    simp
  rw [if_pos hrq]
  exact ⟨rfl, by rw [drawUI_exceptionLocation]⟩

theorem update_exception_triggers_fetch_witness :
    ((update createInstance [Event.setExceptionLocation (some 5)]).snd).length = 1 ∧
    (update createInstance [Event.setExceptionLocation (some 5)]).fst.exceptionLocation = 5 :=
  update_exception_triggers_fetch createInstance 5 (by decide)

/-- C6 (amended): the size entered in the text field is stored, and carried
by any emitted `GetMemory` event, exactly as parsed — no clamping to the
snapshot capacity takes place anywhere. -/
theorem update_size_not_clamped (d : HexMemoryData) :
    (update d []).fst.size = toU64 (strtol16 d.sizeText) ∧
    ((update d []).snd = [] ∨
      (update d []).snd =
        [⟨toU64 (strtol16 d.startAddress), toU64 (strtol16 d.sizeText)⟩]) := by
  constructor
  · simp only [update, processEvents_nil]
    rw [drawUI_size]
  · simp only [update, processEvents_nil]
    by_cases hrq : (drawUI { d with requestData := false }).requestData = true
    · right
      rw [if_pos hrq, drawUI_sa, drawUI_size]
    · left
      rw [if_neg hrq]

/-- State whose address text was cleared while nonzero values are stored. -/
def stMalformed : HexMemoryData :=
  { createInstance with startAddress := "", sa := 5, size := 4132 }

/-- C7 (counterexample): with the address text cleared (empty, hence
malformed) and stored address 5, the cycle overwrites the stored address
with 0 and emits a fetch — instead of retaining the previous valid value
and not marking a fetch pending as the claim states. -/
theorem update_malformed_overwrites :
    stMalformed.sa = 5 ∧
    (update stMalformed []).fst.sa = 0 ∧
    (update stMalformed []).snd = [⟨0, 4132⟩] := by decide

/-- C7 (amended): `strtol` returns 0 for empty or non-hex text with no
error value, and the cycle behaves exactly as if 0 had been entered: the
stored address and size become 0, and a fetch is marked (and one
`GetMemory{0, 0}` emitted) precisely when a stored value was nonzero. -/
theorem update_malformed_as_zero (d : HexMemoryData)
    (ha : strtol16 d.startAddress = 0) (hs : strtol16 d.sizeText = 0) :
    (update d []).fst.sa = 0 ∧ (update d []).fst.size = 0 ∧
    ((update d []).snd = if d.sa = 0 ∧ d.size = 0 then [] else [⟨0, 0⟩]) := by
  have ha' : toU64 (strtol16 d.startAddress) = 0 := by rw [ha]; rfl
  have hs' : toU64 (strtol16 d.sizeText) = 0 := by rw [hs]; rfl
  refine ⟨?_, ?_, ?_⟩
  · simp only [update, processEvents_nil]
    rw [drawUI_sa]
    exact ha'
  · simp only [update, processEvents_nil]
    rw [drawUI_size]
    exact hs'
  · by_cases hz : d.sa = 0 ∧ d.size = 0
    · rw [if_pos hz]
      exact (update_fetch_trigger d).2 ⟨ha'.trans hz.1.symm, hs'.trans hz.2.symm⟩
    · rw [if_neg hz]
      have := (update_fetch_trigger d).1 (by rw [ha', hs']; tauto)
      rw [this, ha', hs']

/-- State with cleared address text, non-hex size text, and nonzero stored
values. -/
def stMalformed2 : HexMemoryData :=
  { createInstance with startAddress := "", sizeText := "xyz", sa := 5, size := 7 }

theorem update_malformed_as_zero_witness :
    (update stMalformed2 []).fst.sa = 0 ∧ (update stMalformed2 []).fst.size = 0 ∧
    ((update stMalformed2 []).snd =
      if stMalformed2.sa = 0 ∧ stMalformed2.size = 0 then [] else [⟨0, 0⟩]) :=
  update_malformed_as_zero stMalformed2 (by decide) (by decide)

/-- C10: a fresh instance stores `exceptionLocation = 0`, and a
`SetExceptionLocation` event carrying address 0 — or no address field,
which decodes as 0 — is no change: the handler returns the state untouched,
and in a cycle without other triggers (the text fields re-parse to the
stored pair) no `GetMemory` event is emitted. -/
theorem exceptionZero_no_change (d : HexMemoryData) (a : Option Nat)
    (hd : d.exceptionLocation = 0) (ha : a.getD 0 = 0)
    (hsa : toU64 (strtol16 d.startAddress) = d.sa)
    (hsz : toU64 (strtol16 d.sizeText) = d.size) :
    createInstance.exceptionLocation = 0 ∧
    updateExceptionLocation d a = d ∧
    (update d [Event.setExceptionLocation a]).snd = [] := by
  refine ⟨rfl, ?_, ?_⟩
  · simp only [updateExceptionLocation]
    rw [ha, hd]
    simp
  · simp only [update, processEvents_single]
    have h1 : updateExceptionLocation { d with requestData := false } a =
        { d with requestData := false } := by
      simp only [updateExceptionLocation]
      rw [ha]
      simp [hd]
    rw [h1]
    have hrq : ¬ (drawUI { d with requestData := false }).requestData = true := by
      rw [drawUI_requestData_iff]
      simp [hsa, hsz]
    rw [if_neg hrq]

theorem exceptionZero_no_change_witness :
    createInstance.exceptionLocation = 0 ∧
    updateExceptionLocation stConsistent none = stConsistent ∧
    (update stConsistent [Event.setExceptionLocation none]).snd = [] :=
  exceptionZero_no_change stConsistent none (by decide) (by decide)
    (by decide) (by decide)

theorem PDIO_read_write (s : String) (rest : List Nat) (h : s.length < 64) :
    PDIO_read_string (PDIO_write_string s ++ rest) 64 = some (s, rest) := by
  have hlen : (s.data.map Char.toNat).length = s.length := by
    rw [List.length_map]
    rfl
  simp only [PDIO_write_string, PDIO_read_string, List.cons_append]
  rw [if_pos ⟨h, by rw [List.length_append, hlen]; omega⟩]
  rw [List.take_left' hlen, List.drop_left' hlen, List.map_map]
  have hmap : s.data.map (Char.ofNat ∘ Char.toNat) = s.data := by
    have hco : Char.ofNat ∘ Char.toNat = id := funext Char.ofNat_toNat
    rw [hco, List.map_id]
  rw [hmap]

/-- C8: `load` after `save` restores both text fields byte-for-byte, for
every pair of texts that fit the state's fixed 64-byte fields (length at
most 63, leaving room for the terminating NUL). -/
theorem load_save_roundtrip (d e : HexMemoryData)
    (h1 : d.startAddress.length < 64) (h2 : d.sizeText.length < 64) :
    (loadState e (saveState d).fst).fst.startAddress = d.startAddress ∧
    (loadState e (saveState d).fst).fst.sizeText = d.sizeText := by
  have r1 : PDIO_read_string (PDIO_write_string d.startAddress ++
      PDIO_write_string d.sizeText) 64 =
      some (d.startAddress, PDIO_write_string d.sizeText) :=
    PDIO_read_write d.startAddress (PDIO_write_string d.sizeText) h1
  have r2 : PDIO_read_string (PDIO_write_string d.sizeText) 64 =
      some (d.sizeText, []) := by
    have := PDIO_read_write d.sizeText [] h2
    rwa [List.append_nil] at this
  simp only [loadState, saveState, r1, r2]
  exact ⟨trivial, trivial⟩

theorem load_save_roundtrip_witness :
    (loadState stMalformed2 (saveState createInstance).fst).fst.startAddress =
      createInstance.startAddress ∧
    (loadState stMalformed2 (saveState createInstance).fst).fst.sizeText =
      createInstance.sizeText :=
  load_save_roundtrip createInstance stMalformed2 (by decide) (by decide)

/-- A session blob holding one complete text field and nothing after it:
the second read finds no data. -/
def blobTrunc : List Nat := PDIO_write_string ("DEAD")

/-- C9 (counterexample): loading a blob that ends after its first field
does not fall back to the documented defaults: the first field is applied
(`startAddress` becomes `"DEAD"`, not the default `"0x00000000"`), only the
unread second field keeps the value set at instance creation, and
`loadState` still reports success (returns 1). -/
theorem load_truncated_partial :
    (loadState createInstance blobTrunc).fst.startAddress = "DEAD" ∧
    "DEAD" ≠ "0x00000000" ∧
    (loadState createInstance blobTrunc).fst.sizeText = "1024" ∧
    (loadState createInstance blobTrunc).snd = 1 := by decide

/-- C9 (amended): `loadState` never fails to the caller — it returns 1
unconditionally; each field read that completes is applied and a field
whose read fails keeps its prior contents, so a blob whose first field
reads but whose bytes then end applies exactly that first field (partial
state), with the second field left at whatever it held before (the default
only on a freshly created instance). -/
theorem load_truncated_applies_prefix (d : HexMemoryData) (blob : List Nat)
    (s1 : String) (rest : List Nat)
    (hr1 : PDIO_read_string blob 64 = some (s1, rest))
    (hr2 : PDIO_read_string rest 64 = none) :
    loadState d blob = ({ d with startAddress := s1 }, 1) := by
  simp only [loadState, hr1, hr2]

theorem load_truncated_applies_prefix_witness :
    loadState createInstance blobTrunc =
      ({ createInstance with startAddress := "DEAD" }, 1) :=
  load_truncated_applies_prefix createInstance blobTrunc ("DEAD") []
    (by decide) (by decide)

end HexMemory
